import Mathlib

/-!
Verification of the hooks/verification routes of the `dawg` repository
(`src/server/routes/verification.ts`) against its specification.

JavaScript runtime values are modelled shallowly:
- a TS `unknown` that is only compared with string literals becomes `JsValue`
  (a string or some other value);
- an optional string field (`string | undefined`, possibly holding `""` at
  runtime) becomes `Option String`, with JS falsiness `none` or `some ""`;
- JS `\s` whitespace is modelled by `jsWhitespace` (the ASCII part, which is
  all the development uses);
- fallible routes return `Except String _` (the 400-with-message path);
- the file system consulted by the skills listing becomes an explicit
  `SkillsFS` record of fallible reads;
- the `HooksManager` (a collaborator of this file, not part of the sources
  under verification) is modelled from the specification where its
  behaviour decides a claim; those definitions carry doc comments starting
  with `Modelled from the spec:`.
-/

/-- A JavaScript runtime value as far as the routes inspect it: either a
string, or some non-string value (number, object, `undefined`, ...), which
every `===`-comparison with a string literal rejects. -/
inductive JsValue where
  | str (s : String)
  | other
deriving DecidableEq, Repr

/-- The `HookTrigger` union type from `../types`: the four lifecycle
trigger literals. -/
inductive HookTrigger where
  | preImplementation
  | postImplementation
  | custom
  | onDemand
deriving DecidableEq, Repr

/-- The string literal a `HookTrigger` is at runtime. -/
def hookTriggerStr : HookTrigger → String
  | .preImplementation => "pre-implementation"
  | .postImplementation => "post-implementation"
  | .custom => "custom"
  | .onDemand => "on-demand"

/-- The four recognized trigger literals. -/
def recognizedTriggers : List String :=
  ["pre-implementation", "post-implementation", "custom", "on-demand"]

/-- A configured hook step (`HookStep` from `../types`), with the fields the
routes file reads. Optional fields are `Option` so that JS falsiness
(absent or empty string) is expressible. -/
structure HookStep where
  id : String
  name : String
  kind : Option String := none
  command : Option String := none
  prompt : Option String := none
  trigger : Option String := none
  enabled : Option Bool := none
  condition : Option String := none
  conditionTitle : Option String := none
deriving DecidableEq, Repr

/-- JS falsiness of an optional string: `undefined` or `""`. -/
def jsFalsyOptStr : Option String → Bool
  | none => true
  | some s => s == ""

/-- The ASCII characters matched by JavaScript's `\s` class (and trimmed by
`String.prototype.trim`). -/
def jsWhitespace (c : Char) : Bool :=
  c == ' ' || c == '\t' || c == '\n' || c == '\r' || c == '\x0b' || c == '\x0c'

/-- JavaScript `String.prototype.trim` on a character list. -/
def jsTrim (l : List Char) : List Char :=
  ((l.dropWhile jsWhitespace).reverse.dropWhile jsWhitespace).reverse

/-- JavaScript `String.prototype.trim`. -/
def jsTrimStr (s : String) : String :=
  String.mk (jsTrim s.data)

/-- Truthiness of `c?.trim()` for an optional string `c`: the string exists
and trims to something non-empty. -/
def optTrimTruthy : Option String → Bool
  | none => false
  | some s => jsTrimStr s != ""

/-- `normalizeHookTrigger` from `verification.ts` lines 28-38: the four
recognized literals pass through; everything else (non-strings included)
falls back to `post-implementation`. -/
def normalizeHookTrigger (value : JsValue) : HookTrigger :=
  match value with
  | .str s =>
    if s = "pre-implementation" then .preImplementation
    else if s = "post-implementation" then .postImplementation
    else if s = "custom" then .custom
    else if s = "on-demand" then .onDemand
    else .postImplementation
  | .other => .postImplementation

/-- `matchesTrigger` from `verification.ts` lines 40-45. For a
`post-implementation` request the step matches when its trigger equals
`post-implementation` or is falsy (`!step.trigger`); otherwise the step's
trigger must equal the requested literal. -/
def matchesTrigger (step : HookStep) (trigger : HookTrigger) : Bool :=
  if trigger = .postImplementation then
    step.trigger == some "post-implementation" || jsFalsyOptStr step.trigger
  else
    step.trigger == some (hookTriggerStr trigger)

/-- `isRunnableCommandStep` from `verification.ts` lines 47-50. -/
def isRunnableCommandStep (step : HookStep) : Bool :=
  let isPrompt :=
    step.kind == some "prompt" || (!jsFalsyOptStr step.prompt && !optTrimTruthy step.command)
  !isPrompt && optTrimTruthy step.command

/-- Character-wise lowercasing, used to state what "differs only in letter
case" means. -/
def lowercaseStr (s : String) : String :=
  String.mk (s.data.map Char.toLower)

/-! ## SKILL.md frontmatter parsing (`parseSkillFrontmatter`, lines 12-26)

The regex `^---\s*\n([\s\S]*?)\n---` is embedded with JavaScript's
backtracking semantics: the anchored literal `---`, then a greedy `\s*`
that backtracks, then a literal newline, then a lazy capture group that
stops at the first following occurrence of a newline and three hyphens. -/

/-- Whether the closing pattern `\n---` matches at the head of the list. -/
def isCloseAt : List Char → Bool
  | a :: b :: c :: d :: _ => a == '\n' && b == '-' && c == '-' && d == '-'
  | _ => false

/-- The lazy group: the shortest prefix of `l` followed by `\n---`, if any. -/
def splitAtClose : List Char → Option (List Char)
  | [] => none
  | c :: rest =>
    if isCloseAt (c :: rest) then some []
    else (splitAtClose rest).map (c :: ·)

/-- Backtracking over the greedy `\s*`: try the newline of the regex at
position `j`, `j - 1`, ..., `0` of `l`, and at the first position that is a
newline and is followed by a closing `\n---`, return the lazy capture. -/
def tryFrom (l : List Char) : Nat → Option (List Char)
  | 0 => if l[0]? = some '\n' then splitAtClose (l.drop 1) else none
  | j + 1 =>
    (if l[j + 1]? = some '\n' then splitAtClose (l.drop (j + 2)) else none) <|> tryFrom l j

/-- Length of the whitespace prefix, the maximal extent of the greedy `\s*`. -/
def wsPrefixLen (l : List Char) : Nat :=
  (l.takeWhile jsWhitespace).length

/-- The capture group of the anchored frontmatter regex match on
`content` (the `match` call on line 13 of the source). -/
def regexCapture (content : List Char) : Option (List Char) :=
  match content with
  | '-' :: '-' :: '-' :: rest => tryFrom rest (wsPrefixLen rest)
  | _ => none

/-- JavaScript `split("\n")` on a character list. -/
def splitNl : List Char → List (List Char)
  | [] => [[]]
  | c :: rest =>
    if c = '\n' then [] :: splitNl rest
    else
      match splitNl rest with
      | [] => [[c]]
      | h :: t => (c :: h) :: t

/-- One iteration of the frontmatter loop (lines 17-24): find the first
colon; skip the line when it is absent or at index 0; otherwise trim key
and value and record the value when the key is `name` or `description`.
The accumulator is the pair (name, description). -/
def processLine (acc : List Char × List Char) (line : List Char) : List Char × List Char :=
  match line.findIdx? (fun c => c == ':') with
  | none => acc
  | some 0 => acc
  | some i =>
    let key := jsTrim (line.take i)
    let value := jsTrim (line.drop (i + 1))
    let acc1 := if key = "name".data then (value, acc.2) else acc
    if key = "description".data then (acc1.1, value) else acc1

/-- The frontmatter loop over all lines of the captured block. -/
def extractFields (block : List Char) : List Char × List Char :=
  (splitNl block).foldl processLine ([], [])

/-- `parseSkillFrontmatter` from `verification.ts` lines 12-26. -/
def parseSkillFrontmatter (content : String) : String × String :=
  match regexCapture content.data with
  | none => ("", "")
  | some g => (String.mk (extractFields g).1, String.mk (extractFields g).2)

/-- A directory entry as returned by `readdirSync(_, withFileTypes)`. -/
structure DirEntry where
  name : String
  isDir : Bool
deriving DecidableEq, Repr

/-- One record of the route's `available` output array. -/
structure AvailableSkill where
  name : String
  displayName : String
  description : String
deriving DecidableEq, Repr

/-- The file-system state the route consults: whether the registry
directory exists, the result of listing it (which may throw), whether a
given entry has a `SKILL.md`, and the result of reading it (which may
throw). -/
structure SkillsFS where
  registryExists : Bool
  readDir : Except Unit (List DirEntry)
  hasSkillMd : String → Bool
  readSkillMd : String → Except Unit String

/-- The record pushed for one valid registry directory (lines 188-193):
`displayName` is the parsed `name` or, when that is empty, the directory
name; `description` is the parsed description (`d || ""` is the identity
on strings). -/
def mkAvailableSkill (dirName : String) (content : String) : AvailableSkill :=
  { name := dirName
    displayName := if (parseSkillFrontmatter content).1 = "" then dirName
      else (parseSkillFrontmatter content).1
    description := (parseSkillFrontmatter content).2 }

/-- The loop over directory entries (lines 180-197): skip non-directories,
skip entries without `SKILL.md`, skip entries whose descriptor read
throws; push a record for the rest. -/
def collectSkills (fs : SkillsFS) : List DirEntry → List AvailableSkill
  | [] => []
  | e :: rest =>
    if !e.isDir then collectSkills fs rest
    else if !fs.hasSkillMd e.name then collectSkills fs rest
    else
      match fs.readSkillMd e.name with
      | .error _ => collectSkills fs rest
      | .ok content => mkAvailableSkill e.name content :: collectSkills fs rest

/-- The whole route body: nothing when the registry directory is missing;
nothing when listing it throws (the outer catch on lines 198-200);
otherwise the collected records. -/
def availableSkills (fs : SkillsFS) : List AvailableSkill :=
  if fs.registryExists then
    match fs.readDir with
    | .error _ => []
    | .ok entries => collectSkills fs entries
  else []

/-- What the loop emits for a single entry, as an `Option`. -/
def skillOfEntry (fs : SkillsFS) (e : DirEntry) : Option AvailableSkill :=
  if e.isDir then
    if fs.hasSkillMd e.name then
      match fs.readSkillMd e.name with
      | .ok content => some (mkAvailableSkill e.name content)
      | .error _ => none
    else none
  else none

/-- A concrete registry state: one skill directory with a descriptor, and
one stray file. -/
def sampleFS : SkillsFS :=
  { registryExists := true
    readDir := .ok [{ name := "pdf", isDir := true }, { name := "notes.txt", isDir := false }]
    hasSkillMd := fun n => n == "pdf"
    readSkillMd := fun n =>
      if n == "pdf" then .ok "---\nname: PDF Tools\n---" else .error () }

/-! ## Config store (steps CRUD) -/

/-- The `JsValue` a raw optional string field carries at runtime. -/
def jsValueOfOptStr : Option String → JsValue
  | none => .other
  | some s => .str s

/-- Modelled from the spec: a `SkillHookInstance` (§3) of the missing
`HooksManager`, keyed by skill name and trigger, with an enabled flag and
optional condition metadata. -/
structure SkillHookInstance where
  skillName : String
  trigger : String
  enabled : Bool
  condition : Option String := none
  conditionTitle : Option String := none
deriving DecidableEq, Repr

/-- Modelled from the spec: the `Config` (§3) held by the missing
`HooksManager` — an ordered sequence of steps plus the skill-hook
instances; `nextId` is the monotonic fresh-id source §4.2 requires. -/
structure Config where
  steps : List HookStep
  skills : List SkillHookInstance
  nextId : Nat
deriving DecidableEq, Repr

/-- The options object the add-step route passes to `addStep`. -/
structure AddStepOpts where
  kind : Option String := none
  prompt : Option String := none
  trigger : Option String := none
  condition : Option String := none
  conditionTitle : Option String := none
deriving DecidableEq, Repr

/-- Modelled from the spec: `addStep` of the missing `HooksManager`
(§4.2) — fails with a Validation error if the name is empty, if a
non-prompt step has an empty command, or if a prompt step has empty prompt
text; otherwise appends a step with a fresh id, enabled, and the trigger
normalized (defaulting to `post-implementation`, §4.1/§8). -/
def addStep (cfg : Config) (name command : String) (opts : AddStepOpts) :
    Except String Config :=
  if name = "" then .error "name is required"
  else if !(opts.kind == some "prompt") && command == "" then .error "command is required"
  else if (opts.kind == some "prompt") && jsFalsyOptStr opts.prompt then
    .error "prompt is required"
  else .ok { cfg with
    steps := cfg.steps ++ [{
      id := toString cfg.nextId
      name := name
      kind := opts.kind
      command := some command
      prompt := opts.prompt
      trigger := some (hookTriggerStr (normalizeHookTrigger (jsValueOfOptStr opts.trigger)))
      enabled := some true
      condition := opts.condition
      conditionTitle := opts.conditionTitle }]
    nextId := cfg.nextId + 1 }

/-- The JSON body of POST /api/hooks/steps. -/
structure AddStepBody where
  name : Option String := none
  command : Option String := none
  kind : Option String := none
  prompt : Option String := none
  trigger : Option String := none
  condition : Option String := none
  conditionTitle : Option String := none
deriving DecidableEq, Repr

/-- The step the modelled `addStep` appends for a given route body. -/
def newStepOf (cfg : Config) (body : AddStepBody) : HookStep :=
  { id := toString cfg.nextId
    name := body.name.getD ""
    kind := body.kind
    command := some (if body.kind == some "prompt" then "" else body.command.getD "")
    prompt := body.prompt
    trigger := some (hookTriggerStr (normalizeHookTrigger (jsValueOfOptStr body.trigger)))
    enabled := some true
    condition := body.condition
    conditionTitle := body.conditionTitle }

/-- The add-step route (POST /api/hooks/steps, lines 99-127): `isPrompt`
is `kind === "prompt"`; the guard rejects a falsy name, a non-prompt step
with falsy command, or a prompt step with falsy prompt; otherwise it calls
`addStep` with the command replaced by `""` for prompt steps. -/
def addStepRoute (cfg : Config) (body : AddStepBody) : Except String Config :=
  let isPrompt := body.kind == some "prompt"
  if jsFalsyOptStr body.name || (!isPrompt && jsFalsyOptStr body.command)
      || (isPrompt && jsFalsyOptStr body.prompt) then
    .error (if isPrompt then "name and prompt are required" else "name and command are required")
  else
    addStep cfg (body.name.getD "") (if isPrompt then "" else body.command.getD "")
      { kind := body.kind, prompt := body.prompt, trigger := body.trigger,
        condition := body.condition, conditionTitle := body.conditionTitle }

/-- Modelled from the spec: `removeStep` of the missing `HooksManager`
(§4.2) — removes the step with the given id from the ordered sequence,
touching nothing else. -/
def removeStep (cfg : Config) (stepId : String) : Config :=
  { cfg with steps := cfg.steps.filter (fun s => !(s.id == stepId)) }

/-- The remove-step route (DELETE /api/hooks/steps/:stepId, lines
145-149): always answers success with the resulting config. -/
def removeStepRoute (cfg : Config) (stepId : String) : Bool × Config :=
  (true, removeStep cfg stepId)

/-! ## Self-report route (POST /api/worktrees/:id/hooks/report,
lines 382-424) -/

/-- The runtime shape of the `success` field of a report body:
`undefined`, `null`, a boolean, or some other value. -/
inductive SuccessField where
  | undef
  | null
  | bool (b : Bool)
  | other
deriving DecidableEq, Repr

/-- The JSON body of a self-report. -/
structure ReportBody where
  skillName : Option String := none
  trigger : Option String := none
  success : SuccessField := .undef
  summary : Option String := none
  content : Option String := none
  filePath : Option String := none
deriving DecidableEq, Repr

/-- The record handed to `reportSkillResult` (the stored skill result). -/
structure SkillResultRecord where
  skillName : String
  trigger : Option String
  status : String
  success : Option Bool := none
  summary : Option String := none
  content : Option String := none
  filePath : Option String := none
  reportedAt : String
deriving DecidableEq, Repr

/-- The key of a stored skill result: (worktreeId, skillName, trigger),
§4.6. -/
abbrev SkillKey := String × String × Option String

/-- The self-report store: latest record per key. -/
abbrev SkillStore := List (SkillKey × SkillResultRecord)

/-- Modelled from the spec: `reportSkillResult` of the missing
`HooksManager` (§4.6) — the latest report for a key unconditionally
replaces the prior record for that key. -/
def reportSkillResult (store : SkillStore) (worktreeId : String)
    (r : SkillResultRecord) : SkillStore :=
  ((worktreeId, r.skillName, r.trigger), r) ::
    store.filter (fun e => !(e.1 == (worktreeId, r.skillName, r.trigger)))

/-- The latest stored record for a key. -/
def lookupSkillResult (store : SkillStore) (key : SkillKey) : Option SkillResultRecord :=
  (store.find? (fun e => e.1 == key)).map (·.2)

/-- JavaScript `x || undefined` on an optional string: an empty string
collapses to `undefined`. -/
def orUndefined : Option String → Option String
  | none => none
  | some s => if s = "" then none else some s

/-- The report route handler, returning the HTTP outcome and the store
after the call. A falsy `skillName` is rejected; an absent (`undefined` or
`null`) `success` stores a `running` record; a boolean `success` stores a
`passed`/`failed` record with the boolean and the optional fields; any
other `success` is rejected. -/
def hooksReportRoute (store : SkillStore) (worktreeId : String) (body : ReportBody)
    (now : String) : Except String Unit × SkillStore :=
  if jsFalsyOptStr body.skillName then (.error "skillName is required", store)
  else
    match body.success with
    | .undef =>
      (.ok (), reportSkillResult store worktreeId
        { skillName := body.skillName.getD ""
          trigger := body.trigger
          status := "running"
          reportedAt := now })
    | .null =>
      (.ok (), reportSkillResult store worktreeId
        { skillName := body.skillName.getD ""
          trigger := body.trigger
          status := "running"
          reportedAt := now })
    | .bool b =>
      (.ok (), reportSkillResult store worktreeId
        { skillName := body.skillName.getD ""
          trigger := body.trigger
          status := if b then "passed" else "failed"
          success := some b
          summary := orUndefined body.summary
          content := orUndefined body.content
          filePath := orUndefined body.filePath
          reportedAt := now })
    | .other => (.error "success must be a boolean", store)

/-! ## Theorems -/

/-- Any input rejected by every comparison with a recognized literal
normalizes to the default trigger. -/
theorem normalize_default_of_unrecognized :
    ∀ v : JsValue, (∀ s ∈ recognizedTriggers, v ≠ .str s) →
      normalizeHookTrigger v = .postImplementation := by
  intro v h
  match v with
  | .other => rfl
  | .str s =>
    have h1 : s ≠ "pre-implementation" := fun hs => h s (by simp [recognizedTriggers, hs]) rfl
    have h2 : s ≠ "post-implementation" := fun hs => h s (by simp [recognizedTriggers, hs]) rfl
    have h3 : s ≠ "custom" := fun hs => h s (by simp [recognizedTriggers, hs]) rfl
    have h4 : s ≠ "on-demand" := fun hs => h s (by simp [recognizedTriggers, hs]) rfl
    simp [normalizeHookTrigger, h1, h2, h3, h4]

/-- C1: for every input that is not one of the four recognized literals,
`normalizeHookTrigger` returns `post-implementation`; each of the four
recognized literals is returned unchanged. -/
theorem C1_normalize_default_and_identity :
    (∀ v : JsValue, (∀ s ∈ recognizedTriggers, v ≠ .str s) →
      normalizeHookTrigger v = .postImplementation) ∧
    (∀ t : HookTrigger, normalizeHookTrigger (.str (hookTriggerStr t)) = t) := by
  refine ⟨normalize_default_of_unrecognized, ?_⟩
  intro t
  cases t <;> rfl

/-- Witness for C1 at the concrete garbage input `"bogus"` and the literal
`"custom"`. -/
theorem C1_witness :
    normalizeHookTrigger (.str "bogus") = .postImplementation ∧
    normalizeHookTrigger (.str "custom") = .custom := by
  refine ⟨C1_normalize_default_and_identity.1 (.str "bogus") ?_,
    C1_normalize_default_and_identity.2 .custom⟩
  intro s hs
  simp [recognizedTriggers] at hs
  rcases hs with h | h | h | h <;> simp [h]

/-- C2: a step whose trigger is `post-implementation` or unset matches a
`post-implementation` request; for any other requested trigger a step
matches exactly when its trigger equals the requested literal; and a step
with unset trigger matches only `post-implementation` requests. -/
theorem C2_matchesTrigger_spec :
    ∀ step : HookStep,
      ((step.trigger = some "post-implementation" ∨ step.trigger = none) →
        matchesTrigger step .postImplementation = true) ∧
      (∀ t : HookTrigger, t ≠ .postImplementation →
        (matchesTrigger step t = true ↔ step.trigger = some (hookTriggerStr t))) ∧
      (step.trigger = none →
        ∀ t : HookTrigger, matchesTrigger step t = true → t = .postImplementation) := by
  intro step
  refine ⟨?_, ?_, ?_⟩
  · rintro (h | h) <;> simp [matchesTrigger, h, jsFalsyOptStr]
  · intro t ht
    simp [matchesTrigger, ht]
  · intro h t hm
    by_contra hne
    simp [matchesTrigger, hne, h] at hm

/-- Witness for C2: a step with unset trigger matches `post-implementation`,
a step with trigger `custom` matches a `custom` request, and the unset step
does not match `custom`. -/
theorem C2_witness :
    matchesTrigger { id := "s1", name := "lint" } .postImplementation = true ∧
    matchesTrigger { id := "s2", name := "lint", trigger := some "custom" } .custom = true ∧
    matchesTrigger { id := "s1", name := "lint" } .custom = false := by
  refine ⟨(C2_matchesTrigger_spec { id := "s1", name := "lint" }).1 (Or.inr rfl), ?_, ?_⟩
  · exact ((C2_matchesTrigger_spec { id := "s2", name := "lint", trigger := some "custom" }).2.1
      .custom (by decide)).mpr rfl
  · by_contra h
    have := (C2_matchesTrigger_spec { id := "s1", name := "lint" }).2.2 rfl .custom (by
      revert h; decide)
    exact absurd this (by decide)

/-- C3: a step is runnable iff its kind is not `prompt` and its command,
trimmed, is non-empty; in particular a `prompt`-kind step is never runnable,
a step with an empty or whitespace-only command is never runnable, and a
step with both a non-empty trimmed command and prompt text is runnable
unless its kind is `prompt`. -/
theorem C3_isRunnable_iff :
    ∀ step : HookStep,
      (isRunnableCommandStep step = true ↔
        (step.kind ≠ some "prompt" ∧ optTrimTruthy step.command = true)) ∧
      (step.kind = some "prompt" → isRunnableCommandStep step = false) ∧
      (optTrimTruthy step.command = false → isRunnableCommandStep step = false) := by
  intro step
  refine ⟨?_, ?_, ?_⟩
  · constructor
    · intro h
      simp only [isRunnableCommandStep, Bool.and_eq_true, Bool.not_eq_true',
        Bool.or_eq_false_iff, Bool.and_eq_false_iff] at h
      refine ⟨?_, h.2⟩
      intro hk
      simp [hk] at h
    · rintro ⟨hk, hc⟩
      have hk' : (step.kind == some "prompt") = false := by
        simp [beq_eq_false_iff_ne, hk]
      simp [isRunnableCommandStep, hk', hc]
  · intro hk
    simp [isRunnableCommandStep, hk]
  · intro hc
    simp [isRunnableCommandStep, hc]

/-- Witness for C3: a command step with a real command is runnable; the
same fields with kind `prompt` are not; a whitespace-only command is not
runnable even with prompt text present. -/
theorem C3_witness :
    isRunnableCommandStep { id := "a", name := "n", command := some "make test" } = true ∧
    isRunnableCommandStep
      { id := "a", name := "n", command := some "make test", kind := some "prompt" } = false ∧
    isRunnableCommandStep
      { id := "a", name := "n", command := some "  ", prompt := some "check it" } = false := by
  refine ⟨(C3_isRunnable_iff { id := "a", name := "n", command := some "make test" }).1.mpr
      ⟨by decide, by decide⟩,
    (C3_isRunnable_iff
      { id := "a", name := "n", command := some "make test", kind := some "prompt" }).2.1 rfl,
    (C3_isRunnable_iff
      { id := "a", name := "n", command := some "  ", prompt := some "check it" }).2.2 (by decide)⟩

/-- C9: normalization compares case-sensitively, so an input that differs
from a recognized literal only in letter case (its lowercasing is
recognized but it is not) is sent to the default `post-implementation`. -/
theorem C9_normalize_case_sensitive :
    ∀ s : String, lowercaseStr s ∈ recognizedTriggers → s ∉ recognizedTriggers →
      normalizeHookTrigger (.str s) = .postImplementation := by
  intro s _ hs
  apply normalize_default_of_unrecognized
  intro t ht h
  cases h
  exact hs ht

/-- Witness for C9 at the mis-cased input `"CUSTOM"`. -/
theorem C9_witness : normalizeHookTrigger (.str "CUSTOM") = .postImplementation :=
  C9_normalize_case_sensitive "CUSTOM" (by decide) (by decide)

/-- C10: a step whose trigger is the empty string behaves exactly like a
step with unset trigger: it matches a `post-implementation` request and no
other. -/
theorem C10_empty_trigger_like_unset :
    ∀ step : HookStep, step.trigger = some "" →
      (∀ t : HookTrigger,
        matchesTrigger step t = matchesTrigger { step with trigger := none } t) ∧
      matchesTrigger step .postImplementation = true ∧
      (∀ t : HookTrigger, t ≠ .postImplementation → matchesTrigger step t = false) := by
  intro step h
  refine ⟨?_, ?_, ?_⟩
  · intro t
    by_cases ht : t = .postImplementation
    · simp [matchesTrigger, ht, h, jsFalsyOptStr]
    · cases t <;> simp_all [matchesTrigger, h, hookTriggerStr]
  · simp [matchesTrigger, h, jsFalsyOptStr]
  · intro t ht
    cases t <;> simp_all [matchesTrigger, h, hookTriggerStr]

/-- Witness for C10 at a concrete step with empty-string trigger. -/
theorem C10_witness :
    matchesTrigger { id := "x", name := "n", trigger := some "" } .postImplementation = true ∧
    matchesTrigger { id := "x", name := "n", trigger := some "" } .onDemand = false := by
  refine ⟨(C10_empty_trigger_like_unset { id := "x", name := "n", trigger := some "" } rfl).2.1,
    (C10_empty_trigger_like_unset { id := "x", name := "n", trigger := some "" } rfl).2.2
      .onDemand (by decide)⟩

theorem collectSkills_eq_filterMap (fs : SkillsFS) :
    ∀ es : List DirEntry, collectSkills fs es = es.filterMap (skillOfEntry fs) := by
  intro es
  induction es with
  | nil => rfl
  | cons e rest ih =>
    by_cases hd : e.isDir
    · by_cases hm : fs.hasSkillMd e.name
      · rcases hr : fs.readSkillMd e.name with u | content
        · simp [collectSkills, skillOfEntry, hd, hm, hr, ih]
        · simp [collectSkills, skillOfEntry, hd, hm, hr, ih]
      · simp [collectSkills, skillOfEntry, hd, hm, ih]
    · simp [collectSkills, skillOfEntry, hd, ih]

theorem skillOfEntry_eq_some (fs : SkillsFS) (e : DirEntry) (r : AvailableSkill) :
    skillOfEntry fs e = some r ↔
      (e.isDir = true ∧ fs.hasSkillMd e.name = true ∧
        ∃ content, fs.readSkillMd e.name = .ok content ∧
          r = mkAvailableSkill e.name content) := by
  constructor
  · intro h
    by_cases hd : e.isDir
    · by_cases hm : fs.hasSkillMd e.name
      · rcases hr : fs.readSkillMd e.name with u | content
        · rw [skillOfEntry, if_pos hd, if_pos hm, hr] at h
          cases h
        · rw [skillOfEntry, if_pos hd, if_pos hm, hr] at h
          exact ⟨hd, hm, content, rfl, (Option.some_injective _ h).symm⟩
      · rw [skillOfEntry, if_pos hd, if_neg hm] at h
        cases h
    · rw [skillOfEntry, if_neg hd] at h
      cases h
  · rintro ⟨hd, hm, content, hr, rfl⟩
    rw [skillOfEntry, if_pos hd, if_pos hm, hr]

/-- C6: for every state of the registry directory, a record is emitted
exactly for the directory entries that are directories, have a `SKILL.md`,
and whose descriptor reads successfully, and the record is built from the
directory name and the parsed descriptor; a listing failure or a missing
registry yields the empty listing; no state makes the route raise (the
handler is a total function). -/
theorem C6_availableSkills_spec :
    (∀ (fs : SkillsFS) (entries : List DirEntry), fs.readDir = .ok entries →
      ∀ r : AvailableSkill, r ∈ availableSkills fs ↔
        (fs.registryExists = true ∧ ∃ e ∈ entries, e.isDir = true ∧
          fs.hasSkillMd e.name = true ∧
          ∃ content, fs.readSkillMd e.name = .ok content ∧
            r = mkAvailableSkill e.name content)) ∧
    (∀ fs : SkillsFS, fs.readDir = .error () → availableSkills fs = []) ∧
    (∀ fs : SkillsFS, fs.registryExists = false → availableSkills fs = []) := by
  refine ⟨?_, ?_, ?_⟩
  · intro fs entries hdir r
    by_cases hreg : fs.registryExists
    · rw [availableSkills, if_pos hreg, hdir]
      show r ∈ collectSkills fs entries ↔ _
      rw [collectSkills_eq_filterMap, List.mem_filterMap]
      constructor
      · rintro ⟨e, he, hsome⟩
        exact ⟨hreg, e, he, (skillOfEntry_eq_some fs e r).mp hsome⟩
      · rintro ⟨_, e, he, hrest⟩
        exact ⟨e, he, (skillOfEntry_eq_some fs e r).mpr hrest⟩
    · rw [availableSkills, if_neg hreg]
      simp only [List.not_mem_nil, false_iff]
      rintro ⟨hreg2, _⟩
      exact hreg hreg2
  · intro fs hdir
    rw [availableSkills, hdir]
    split <;> rfl
  · intro fs hreg
    rw [availableSkills, if_neg (by simp [hreg])]

/-- Witness for C6 on `sampleFS`: the `pdf` directory is listed (with its
parsed display name), and the same state with a throwing directory listing
yields the empty listing. -/
theorem C6_witness :
    mkAvailableSkill "pdf" "---\nname: PDF Tools\n---" ∈ availableSkills sampleFS ∧
    availableSkills { sampleFS with readDir := .error () } = [] := by
  constructor
  · exact (C6_availableSkills_spec.1 sampleFS
      [{ name := "pdf", isDir := true }, { name := "notes.txt", isDir := false }] rfl _).mpr
      ⟨rfl, { name := "pdf", isDir := true }, by simp, rfl, rfl,
        "---\nname: PDF Tools\n---", rfl, rfl⟩
  · exact C6_availableSkills_spec.2.1 _ rfl

theorem getD_ne_of_not_falsy :
    ∀ o : Option String, jsFalsyOptStr o = false → o.getD "" ≠ "" := by
  intro o h
  cases o with
  | none => simp [jsFalsyOptStr] at h
  | some s => simpa [jsFalsyOptStr] using h

/-- C7: the add-step route fails with a validation error — leaving the
config untouched, since no new config is produced — exactly when the name
is falsy, or the step is not a prompt and the command is falsy, or the
step is a prompt and the prompt is falsy; otherwise it succeeds and
returns the config with the new step appended. -/
theorem C7_addStep_validation :
    ∀ (cfg : Config) (body : AddStepBody),
      ((jsFalsyOptStr body.name = true ∨
        ((body.kind == some "prompt") = false ∧ jsFalsyOptStr body.command = true) ∨
        ((body.kind == some "prompt") = true ∧ jsFalsyOptStr body.prompt = true)) →
        ∃ msg, addStepRoute cfg body = .error msg) ∧
      ((jsFalsyOptStr body.name = false ∧
        ((body.kind == some "prompt") = true ∨ jsFalsyOptStr body.command = false) ∧
        ((body.kind == some "prompt") = false ∨ jsFalsyOptStr body.prompt = false)) →
        addStepRoute cfg body =
          .ok { cfg with
            steps := cfg.steps ++ [newStepOf cfg body]
            nextId := cfg.nextId + 1 }) := by
  intro cfg body
  constructor
  · intro h
    refine ⟨if (body.kind == some "prompt") then "name and prompt are required"
      else "name and command are required", ?_⟩
    rw [addStepRoute, if_pos]
    rcases h with h | ⟨h1, h2⟩ | ⟨h1, h2⟩
    · simp [h]
    · simp [h1, h2]
    · simp [h1, h2]
  · rintro ⟨hn, hc, hp⟩
    have hguard : (jsFalsyOptStr body.name
        || (!(body.kind == some "prompt") && jsFalsyOptStr body.command)
        || ((body.kind == some "prompt") && jsFalsyOptStr body.prompt)) = false := by
      rcases hc with hc | hc <;> rcases hp with hp | hp
      · rw [hc] at hp; cases hp
      · simp [hn, hc, hp]
      · simp [hn, hc, hp]
      · simp [hn, hc, hp]
    have hname := getD_ne_of_not_falsy body.name hn
    rw [addStepRoute, if_neg (by simp [hguard])]
    by_cases hk : (body.kind == some "prompt") = true
    · have hpf : jsFalsyOptStr body.prompt = false := by
        rcases hp with hp | hp
        · rw [hk] at hp; cases hp
        · exact hp
      simp [addStep, newStepOf, hk, hname, hpf]
    · have hk' : (body.kind == some "prompt") = false := by
        simpa using hk
      have hcf : jsFalsyOptStr body.command = false := by
        rcases hc with hc | hc
        · rw [hk'] at hc; cases hc
        · exact hc
      have hcmd := getD_ne_of_not_falsy body.command hcf
      simp [addStep, newStepOf, hk', hname, hcmd]

/-- Witness for C7: a body with a name but no command is rejected; a body
with name and command yields the appended config. -/
theorem C7_witness :
    (∃ msg, addStepRoute { steps := [], skills := [], nextId := 0 }
      { name := some "lint" } = .error msg) ∧
    addStepRoute { steps := [], skills := [], nextId := 0 }
      { name := some "lint", command := some "run lint" } =
        .ok { steps := [] ++ [newStepOf { steps := [], skills := [], nextId := 0 }
                { name := some "lint", command := some "run lint" }]
              skills := []
              nextId := 0 + 1 } := by
  constructor
  · exact (C7_addStep_validation { steps := [], skills := [], nextId := 0 }
      { name := some "lint" }).1 (Or.inr (Or.inl (by constructor <;> rfl)))
  · exact (C7_addStep_validation { steps := [], skills := [], nextId := 0 }
      { name := some "lint", command := some "run lint" }).2
      ⟨rfl, Or.inr rfl, Or.inl rfl⟩

/-- C8: removing a step id that is absent from the config is not an
error: the route answers success and the config is identical to the one
before the call. -/
theorem C8_removeStep_absent_id :
    ∀ (cfg : Config) (stepId : String), (∀ s ∈ cfg.steps, s.id ≠ stepId) →
      removeStepRoute cfg stepId = (true, cfg) := by
  intro cfg stepId h
  rw [removeStepRoute, removeStep]
  rw [List.filter_eq_self.mpr]
  · intro a ha
    simpa using h a ha

/-- Witness for C8 at a one-step config and the absent id `"77"`. -/
theorem C8_witness :
    removeStepRoute
      { steps := [{ id := "1", name := "lint" }], skills := [], nextId := 2 } "77" =
      (true, { steps := [{ id := "1", name := "lint" }], skills := [], nextId := 2 }) := by
  exact C8_removeStep_absent_id _ "77" (by decide)

theorem lookup_reportSkillResult (store : SkillStore) (w : String) (r : SkillResultRecord) :
    lookupSkillResult (reportSkillResult store w r) (w, r.skillName, r.trigger) = some r := by
  simp [lookupSkillResult, reportSkillResult, List.find?]

/-- C4: for a report with non-falsy `skillName`: an absent (`undefined`
or `null`) `success` answers success and stores a `running` record with
the timestamp under the report's key; a boolean `success` stores a
`passed`/`failed` record retaining the boolean, timestamp and the
optional summary/content/filePath fields; a non-boolean present `success`
is rejected and stores nothing; a falsy `skillName` is rejected and
stores nothing. -/
theorem C4_report_route_spec :
    ∀ (store : SkillStore) (worktreeId : String) (body : ReportBody) (now : String),
      (jsFalsyOptStr body.skillName = false →
        ((body.success = .undef ∨ body.success = .null) →
          (hooksReportRoute store worktreeId body now).1 = .ok () ∧
          lookupSkillResult (hooksReportRoute store worktreeId body now).2
              (worktreeId, body.skillName.getD "", body.trigger) =
            some { skillName := body.skillName.getD ""
                   trigger := body.trigger
                   status := "running"
                   reportedAt := now }) ∧
        (∀ b : Bool, body.success = .bool b →
          (hooksReportRoute store worktreeId body now).1 = .ok () ∧
          lookupSkillResult (hooksReportRoute store worktreeId body now).2
              (worktreeId, body.skillName.getD "", body.trigger) =
            some { skillName := body.skillName.getD ""
                   trigger := body.trigger
                   status := if b then "passed" else "failed"
                   success := some b
                   summary := orUndefined body.summary
                   content := orUndefined body.content
                   filePath := orUndefined body.filePath
                   reportedAt := now }) ∧
        (body.success = .other →
          (∃ msg, (hooksReportRoute store worktreeId body now).1 = .error msg) ∧
          (hooksReportRoute store worktreeId body now).2 = store)) ∧
      (jsFalsyOptStr body.skillName = true →
        (∃ msg, (hooksReportRoute store worktreeId body now).1 = .error msg) ∧
        (hooksReportRoute store worktreeId body now).2 = store) := by
  intro store worktreeId body now
  constructor
  · intro hsk
    refine ⟨?_, ?_, ?_⟩
    · rintro (hs | hs) <;>
        simp [hooksReportRoute, hsk, hs] <;>
        exact lookup_reportSkillResult _ _ _
    · intro b hs
      simp [hooksReportRoute, hsk, hs]
      exact lookup_reportSkillResult _ _ _
    · intro hs
      simp [hooksReportRoute, hsk, hs]
  · intro hsk
    simp [hooksReportRoute, hsk]

/-- Witness for C4: a start report stores a `running` record; a failed
result report stores a `failed` record with its summary; a non-boolean
`success` stores nothing; a missing `skillName` is rejected. -/
theorem C4_witness :
    (hooksReportRoute [] "wt1" { skillName := some "review" } "t0").1 = .ok () ∧
    lookupSkillResult (hooksReportRoute [] "wt1" { skillName := some "review" } "t0").2
        ("wt1", "review", none) =
      some { skillName := "review", trigger := none, status := "running",
             reportedAt := "t0" } ∧
    lookupSkillResult (hooksReportRoute [] "wt1"
        { skillName := some "review", trigger := some "custom", success := .bool false,
          summary := some "2 issues" } "t1").2
        ("wt1", "review", some "custom") =
      some { skillName := "review", trigger := some "custom", status := "failed",
             success := some false, summary := some "2 issues", reportedAt := "t1" } ∧
    (hooksReportRoute [] "wt1" { skillName := some "review", success := .other } "t2").2 = [] ∧
    (∃ msg, (hooksReportRoute [] "wt1" { success := .bool true } "t2").1 = .error msg) := by
  refine ⟨((C4_report_route_spec [] "wt1" { skillName := some "review" } "t0").1
      rfl).1 (Or.inl rfl) |>.1, ?_, ?_, ?_, ?_⟩
  · exact (((C4_report_route_spec [] "wt1" { skillName := some "review" } "t0").1
      rfl).1 (Or.inl rfl)).2
  · exact (((C4_report_route_spec [] "wt1"
      { skillName := some "review", trigger := some "custom", success := .bool false,
        summary := some "2 issues" } "t1").1 rfl).2.1 false rfl).2.trans (by decide)
  · exact (((C4_report_route_spec [] "wt1"
      { skillName := some "review", success := .other } "t2").1 rfl).2.2 rfl).2
  · exact ((C4_report_route_spec [] "wt1" { success := .bool true } "t2").2 rfl).1
